import Mathlib

/-!
Verification development for the AutodartsTouch verification-script
repository.  The repository contains three Playwright driver scripts; the
notification-aggregation component they exercise lives in the host Electron
application, so its operations are modelled here from the specification,
while the control flow of the scripts themselves (`verify_cleanup.py`,
`verify_notifications.py`) is embedded from the source.
-/

namespace AutodartsTouch

/-- Modelled from the spec: the `Notice` entity of §3 — the aggregator's
sole entity, a pending update record tagged by `origin` with a display
`message`.  The aggregator implementation itself is not in this repository
(only the scripts that probe it are), so the data model follows the spec. -/
structure Notice where
  origin : String
  message : String
deriving DecidableEq, Repr

/-- Modelled from the spec: the aggregator state — the ordered
`NotificationSet` of §3 together with the panel-visibility state machine of
§4.1 (`HIDDEN` = `false`, `VISIBLE` = `true`). -/
structure AggState where
  notices : List Notice
  panelVisible : Bool
deriving DecidableEq, Repr

/-- Modelled from the spec: the initial state — created empty at startup,
panel `HIDDEN`. -/
def initState : AggState := ⟨[], false⟩

/-- Whether some notice in `l` carries origin `o`. -/
def hasOrigin (l : List Notice) (o : String) : Bool :=
  l.any fun n => n.origin == o

/-- Modelled from the spec: `recordAvailable(origin, message)` of §4.1 —
inserts or upserts a Notice for `origin` (last-write-wins, insertion order
preserved); the panel transitions to / stays `VISIBLE`. -/
def recordAvailable (s : AggState) (o m : String) : AggState :=
  { notices :=
      if hasOrigin s.notices o then
        s.notices.map fun n => if n.origin == o then ⟨o, m⟩ else n
      else
        s.notices ++ [⟨o, m⟩],
    panelVisible := true }

/-- Modelled from the spec: `recordInstalled(origin)` of §4.1 — removes the
Notice for `origin` if present, no-op if absent; if the set becomes empty
the panel transitions to `HIDDEN`, otherwise it is only re-rendered. -/
def recordInstalled (s : AggState) (o : String) : AggState :=
  { notices := s.notices.filter fun n => n.origin != o,
    panelVisible :=
      if (s.notices.filter fun n => n.origin != o).isEmpty then false
      else s.panelVisible }

/-- Modelled from the spec: `dismissAll()` of §4.1 — empties the set
unconditionally and the panel transitions to `HIDDEN`. -/
def dismissAll (_s : AggState) : AggState := ⟨[], false⟩

/-- Modelled from the spec: `render()` of §4.1 — a pure function of the
current state, joining each Notice's `message` in insertion order with the
literal separator `" | "`; the empty string on the empty set. -/
def render (s : AggState) : String :=
  String.intercalate " | " (s.notices.map Notice.message)

/-- The display string exactly as the spec words it: each message in
insertion order, consecutive messages separated by the literal `" | "`,
the empty string for no messages.  Used to check `render` against the
spec's phrasing. -/
def joinMessages : List String → String
  | [] => ""
  | [m] => m
  | m :: m2 :: rest => m ++ " | " ++ joinMessages (m2 :: rest)

/-- Tail part of the joined display string: a leading separator before each
remaining message. -/
def tailJoin : List String → String
  | [] => ""
  | m :: rest => " | " ++ m ++ tailJoin rest

/-- The three mutating operations of §4.1, as trace events. -/
inductive Op where
  | avail (o m : String)
  | installed (o : String)
  | dismiss
deriving DecidableEq, Repr

/-- One step of the aggregator. -/
def step (s : AggState) : Op → AggState
  | .avail o m => recordAvailable s o m
  | .installed o => recordInstalled s o
  | .dismiss => dismissAll s

/-- The state reached from the initial state by a sequence of operations;
reachable states are exactly the values of `run`. -/
def run (ops : List Op) : AggState := ops.foldl step initState

/-- The panel-visibility invariant: the panel is `VISIBLE` exactly when the
notice set is non-empty. -/
def PanelInv (s : AggState) : Prop := s.panelVisible = true ↔ s.notices ≠ []

/-- At most one notice per distinct origin. -/
def DistinctOrigins (l : List Notice) : Prop :=
  l.Pairwise fun a b => a.origin ≠ b.origin

/-- First scenario state of spec §8: the app update notice arrives. -/
def scenario1 : AggState :=
  recordAvailable initState "app" "AutodartsTouch update available!"

/-- Second scenario state: the extension update notice arrives. -/
def scenario2 : AggState :=
  recordAvailable scenario1 "extension" "Extension has an update!"

/-- Third scenario state: the user dismisses the panel. -/
def scenario3 : AggState := dismissAll scenario2

/-- Fourth scenario state: the app notice is re-added. -/
def scenario4 : AggState :=
  recordAvailable scenario3 "app" "AutodartsTouch update available!"

/-- Fifth scenario state: the extension notice is re-added. -/
def scenario5 : AggState :=
  recordAvailable scenario4 "extension" "Extension has an update!"

/-- Sixth scenario state: the extension update is installed. -/
def scenario6 : AggState := recordInstalled scenario5 "extension"

/-- The external outcomes that determine a run of `verify_toolbar` in
`verify_cleanup.py`: whether `connect_over_cdp` raises, whether
`browser.contexts[0]` raises (no contexts), whether the toolbar page is
found, whether the two `expect` assertions and the screenshot succeed, and
whether the connection dropped before the `finally` block runs. -/
structure CleanupEnv where
  connectFails : Bool
  contextsEmpty : Bool
  toolbarFound : Bool
  assertVisibleOk : Bool
  assertAriaOk : Bool
  screenshotOk : Bool
  linkDropped : Bool
deriving DecidableEq, Repr

/-- Observable outcome of one run of `verify_toolbar`: whether an exception
escaped the function, whether the `except` handler printed the error,
whether `browser.close()` ran on the toolbar-not-found path inside `try`,
and whether the `finally` block closed the browser. -/
structure CleanupOutcome where
  propagated : Bool
  printedError : Bool
  closedEarly : Bool
  closedInFinally : Bool
deriving DecidableEq, Repr

/-- Whether the `browser` variable was bound, i.e. `connect_over_cdp`
returned (`'browser' in locals()` in the `finally` block). -/
def browserEstablished (e : CleanupEnv) : Bool := !e.connectFails

/-- Whether some step inside the `try` block raises an exception that the
`except Exception` handler catches. -/
def raisesInTry (e : CleanupEnv) : Bool :=
  if e.connectFails then true
  else if e.contextsEmpty then true
  else if !e.toolbarFound then false
  else !e.assertVisibleOk || !e.assertAriaOk || !e.screenshotOk

/-- `verify_toolbar` of `src/jules-scratch/verification/verify_cleanup.py`:
a `try` block that connects over CDP, takes `contexts[0]`, searches for the
`index.html` page (printing and returning after `browser.close()` if it is
absent), asserts visibility and the `aria-label`, and screenshots; an
`except Exception` handler that prints the error; and a `finally` block
that closes the browser when `'browser' in locals()` and
`browser.is_connected()`. -/
def verify_toolbar (e : CleanupEnv) : CleanupOutcome :=
  if e.connectFails then
    { propagated := false, printedError := true,
      closedEarly := false, closedInFinally := false }
  else if e.contextsEmpty then
    { propagated := false, printedError := true,
      closedEarly := false, closedInFinally := !e.linkDropped }
  else if !e.toolbarFound then
    { propagated := false, printedError := false,
      closedEarly := true, closedInFinally := false }
  else if !e.assertVisibleOk || !e.assertAriaOk || !e.screenshotOk then
    { propagated := false, printedError := true,
      closedEarly := false, closedInFinally := !e.linkDropped }
  else
    { propagated := false, printedError := false,
      closedEarly := false, closedInFinally := !e.linkDropped }

/-- The async callables of `verify_notifications.py`, plus the script-level
`__main__` guard as an artificial root. -/
inductive ScriptFn where
  | main
  | run_main
  | fallback_main
  | scriptEntry
deriving DecidableEq, Repr

/-- The call edges among those callables, read off the source of
`verify_notifications.py`: the `__main__` guard runs
`asyncio.run(fallback_main())`; `run_main` awaits `main()` and, on
exception, `fallback_main()`; `main` and `fallback_main` call none of the
others. -/
def calls : ScriptFn → List ScriptFn
  | .scriptEntry => [.fallback_main]
  | .run_main => [.main, .fallback_main]
  | .main => []
  | .fallback_main => []

/-- The callables invoked when the script is executed: the `__main__` guard
runs, and anything called (transitively) from an invoked callable is
invoked. -/
inductive Invoked : ScriptFn → Prop where
  | entry : Invoked .scriptEntry
  | call {f g : ScriptFn} : Invoked f → g ∈ calls f → Invoked g

theorem joinMessages_cons (m : String) (l : List String) :
    joinMessages (m :: l) = m ++ tailJoin l := by
  induction l generalizing m with
  | nil => simp [joinMessages, tailJoin]
  | cons m2 rest ih =>
    simp only [joinMessages, tailJoin, ih]
    simp [String.append_assoc]

theorem intercalate_go_spec (acc : String) (l : List String) :
    String.intercalate.go acc " | " l = acc ++ tailJoin l := by
  induction l generalizing acc with
  | nil => simp [String.intercalate.go, tailJoin]
  | cons m rest ih =>
    simp only [String.intercalate.go, tailJoin, ih]
    simp [String.append_assoc]

theorem intercalate_eq_joinMessages (l : List String) :
    String.intercalate " | " l = joinMessages l := by
  cases l with
  | nil => rfl
  | cons m rest =>
    simp [String.intercalate, intercalate_go_spec, joinMessages_cons]

theorem panelInv_step (s : AggState) (op : Op) (h : PanelInv s) :
    PanelInv (step s op) := by
  cases op with
  | avail o m =>
    simp only [step, recordAvailable, PanelInv]
    constructor
    · intro _
      split
      · rename_i hh
        intro hmap
        rw [List.map_eq_nil_iff] at hmap
        simp [hasOrigin, hmap] at hh
      · simp
    · intro _; trivial
  | installed o =>
    simp only [step, recordInstalled, PanelInv]
    split
    · rename_i hh
      simp_all [List.isEmpty_iff]
    · rename_i hh
      rw [List.isEmpty_iff] at hh
      constructor
      · intro _; exact hh
      · intro _
        rcases h with ⟨_, h2⟩
        apply h2
        intro hnil
        simp [hnil] at hh
  | dismiss =>
    simp [step, dismissAll, PanelInv]

theorem panelInv_foldl (ops : List Op) (s : AggState) (h : PanelInv s) :
    PanelInv (ops.foldl step s) := by
  induction ops generalizing s with
  | nil => exact h
  | cons op rest ih => exact ih _ (panelInv_step s op h)

theorem panelInv_run (ops : List Op) : PanelInv (run ops) :=
  panelInv_foldl ops initState (by simp [PanelInv, initState])

theorem distinct_step (s : AggState) (op : Op)
    (h : DistinctOrigins s.notices) : DistinctOrigins (step s op).notices := by
  cases op with
  | avail o m =>
    simp only [step, recordAvailable, DistinctOrigins]
    split
    · rename_i hh
      refine h.map _ ?_
      intro a b hab
      by_cases ha : a.origin == o <;> by_cases hb : b.origin == o <;>
        simp_all
    · rename_i hh
      rw [List.pairwise_append]
      refine ⟨h, List.pairwise_singleton _ _, ?_⟩
      intro a ha b hb
      simp only [List.mem_singleton] at hb
      subst hb
      simp only [hasOrigin, List.any_eq_true, beq_iff_eq] at hh
      intro heq
      exact hh ⟨a, ha, heq⟩
  | installed o =>
    simp only [step, recordInstalled, DistinctOrigins]
    exact h.sublist (List.filter_sublist _)
  | dismiss =>
    simp [step, dismissAll, DistinctOrigins]

theorem distinct_foldl (ops : List Op) (s : AggState)
    (h : DistinctOrigins s.notices) :
    DistinctOrigins ((ops.foldl step s).notices) := by
  induction ops generalizing s with
  | nil => exact h
  | cons op rest ih => exact ih _ (distinct_step s op h)

theorem distinct_run (ops : List Op) : DistinctOrigins (run ops).notices :=
  distinct_foldl ops initState (by simp [DistinctOrigins, initState])

theorem recordInstalled_noop_of_inv (s : AggState) (o : String)
    (hinv : PanelInv s) (h : ∀ n ∈ s.notices, n.origin ≠ o) :
    recordInstalled s o = s := by
  obtain ⟨l, p⟩ := s
  have hfilter : l.filter (fun n => n.origin != o) = l := by
    rw [List.filter_eq_self]
    intro n hn
    simpa using h n hn
  simp only [recordInstalled, hfilter]
  cases l with
  | nil =>
    have hp : p = false := by
      rcases hinv with ⟨h1, _⟩
      cases p
      · rfl
      · exact absurd rfl (h1 rfl)
    simp [hp]
  | cons a t => simp


/-- C1: for every `NotificationSet` state, `render` returns the messages in
insertion order joined by the literal separator `" | "` (as captured by the
spec-worded `joinMessages`), the empty string on the empty set; and after
`recordAvailable "app" "A"` then `recordAvailable "ext" "B"` on the empty
state, `render` returns `"A | B"`. -/
theorem render_joins_in_order :
    (∀ s : AggState, render s = joinMessages (s.notices.map Notice.message)) ∧
    (∀ p : Bool, render ⟨[], p⟩ = "") ∧
    render (recordAvailable (recordAvailable initState "app" "A") "ext" "B")
      = "A | B" :=
  ⟨fun s => intercalate_eq_joinMessages _, fun _p => rfl, rfl⟩

/-- C2: the initial state is empty with the panel `HIDDEN`, and in every
state reachable by `recordAvailable` / `recordInstalled` / `dismissAll`
operations the panel is `VISIBLE` exactly when the notice set is non-empty
(hence `HIDDEN` exactly when it is empty). -/
theorem panel_visible_iff_nonempty :
    (initState.notices = [] ∧ initState.panelVisible = false) ∧
    ∀ ops : List Op,
      ((run ops).panelVisible = true ↔ (run ops).notices ≠ []) :=
  ⟨⟨rfl, rfl⟩, fun ops => panelInv_run ops⟩

/-- C3: every reachable state has at most one Notice per distinct origin,
and `recordAvailable` for an origin already present replaces that origin's
message in place: `recordAvailable "app" "A"` then `recordAvailable "app"
"B"` yields the single notice `("app", "B")` and `render` returns `"B"`. -/
theorem one_notice_per_origin :
    (∀ ops : List Op, DistinctOrigins (run ops).notices) ∧
    recordAvailable (recordAvailable initState "app" "A") "app" "B"
      = ⟨[⟨"app", "B"⟩], true⟩ ∧
    render (recordAvailable (recordAvailable initState "app" "A") "app" "B")
      = "B" :=
  ⟨distinct_run, by decide, rfl⟩

/-- C4: from any non-empty state, `dismissAll` empties the notice set, so
`render` returns the empty string, and the panel transitions to `HIDDEN`,
regardless of how many notices were pending. -/
theorem dismissAll_clears (s : AggState) (h : s.notices ≠ []) :
    (dismissAll s).notices = [] ∧ render (dismissAll s) = "" ∧
    (dismissAll s).panelVisible = false :=
  ⟨rfl, rfl, rfl⟩

/-- Witness for C4 at the concrete one-notice state. -/
theorem dismissAll_clears_witness :
    (dismissAll ⟨[⟨"app", "A"⟩], true⟩).notices = [] ∧
    render (dismissAll ⟨[⟨"app", "A"⟩], true⟩) = "" ∧
    (dismissAll ⟨[⟨"app", "A"⟩], true⟩).panelVisible = false :=
  dismissAll_clears ⟨[⟨"app", "A"⟩], true⟩ (by decide)

/-- C5: in every reachable state, `recordInstalled` for an origin not
present leaves the state exactly unchanged (notice set and panel alike);
in particular `recordInstalled "x"` on the initial empty state leaves the
set empty and the panel `HIDDEN`. -/
theorem recordInstalled_unknown_noop :
    (∀ (ops : List Op) (o : String),
        (∀ n ∈ (run ops).notices, n.origin ≠ o) →
        recordInstalled (run ops) o = run ops) ∧
    recordInstalled initState "x" = initState ∧
    (recordInstalled initState "x").notices = [] ∧
    (recordInstalled initState "x").panelVisible = false :=
  ⟨fun ops o h => recordInstalled_noop_of_inv (run ops) o (panelInv_run ops) h,
   by decide, rfl, rfl⟩

/-- Witness for C5: `recordInstalled "x"` is the identity on the reachable
one-notice state for origin `"app"`. -/
theorem recordInstalled_unknown_noop_witness :
    recordInstalled (run [Op.avail "app" "A"]) "x" = run [Op.avail "app" "A"] :=
  recordInstalled_unknown_noop.1 [Op.avail "app" "A"] "x" (by decide)

/-- C6: `recordInstalled o` removes exactly the notices of origin `o`: the
remaining notices are a sublist of the old ones (relative order and
messages kept), membership after the call is membership before with a
different origin, the panel state is unchanged whenever the set stays
non-empty; and on the concrete state with notices `("app", "A")` and
`("ext", "B")`, `recordInstalled "ext"` renders `"A"` with the panel still
`VISIBLE`. -/
theorem recordInstalled_selective :
    (∀ (s : AggState) (o : String),
        (recordInstalled s o).notices.Sublist s.notices ∧
        (∀ n : Notice,
          n ∈ (recordInstalled s o).notices ↔ n ∈ s.notices ∧ n.origin ≠ o) ∧
        ((recordInstalled s o).notices ≠ [] →
          (recordInstalled s o).panelVisible = s.panelVisible)) ∧
    render (recordInstalled ⟨[⟨"app", "A"⟩, ⟨"ext", "B"⟩], true⟩ "ext") = "A" ∧
    (recordInstalled ⟨[⟨"app", "A"⟩, ⟨"ext", "B"⟩], true⟩ "ext").panelVisible
      = true := by
  refine ⟨fun s o => ⟨List.filter_sublist _, ?_, ?_⟩, by decide, by decide⟩
  · intro n
    simp [recordInstalled, List.mem_filter]
  · simp only [recordInstalled]
    intro hne
    have : ((s.notices.filter fun n => n.origin != o).isEmpty) = false := by
      simpa [List.isEmpty_iff] using hne
    simp [this]

/-- Witness for C6: the panel-frame implication at the concrete two-notice
state, its hypothesis discharged by evaluation. -/
theorem recordInstalled_selective_witness :
    (recordInstalled ⟨[⟨"app", "A"⟩, ⟨"ext", "B"⟩], true⟩ "ext").panelVisible
      = (AggState.mk [⟨"app", "A"⟩, ⟨"ext", "B"⟩] true).panelVisible :=
  (recordInstalled_selective.1 ⟨[⟨"app", "A"⟩, ⟨"ext", "B"⟩], true⟩ "ext").2.2
    (by decide)

/-- C7: the literal end-to-end scenario of spec §8: adding the app notice
shows the panel with its message, adding the extension notice joins both
messages, `dismissAll` hides the panel, re-adding both shows both again,
and `recordInstalled "extension"` leaves only the app message with the
panel still visible. -/
theorem end_to_end_scenario :
    scenario1.panelVisible = true ∧
    render scenario1 = "AutodartsTouch update available!" ∧
    render scenario2
      = "AutodartsTouch update available! | Extension has an update!" ∧
    scenario3.panelVisible = false ∧ render scenario3 = "" ∧
    scenario5.panelVisible = true ∧
    render scenario5
      = "AutodartsTouch update available! | Extension has an update!" ∧
    render scenario6 = "AutodartsTouch update available!" ∧
    scenario6.panelVisible = true :=
  ⟨rfl, rfl, rfl, rfl, rfl, rfl, rfl, rfl, rfl⟩

/-- C8: `render` is a deterministic projection of the notice list: any two
states with the same notices render to the same string (in particular two
calls on one state agree, and the panel flag does not influence the
output); in this functional embedding `render : AggState → String` cannot
mutate the state. -/
theorem render_deterministic (s1 s2 : AggState)
    (h : s1.notices = s2.notices) : render s1 = render s2 := by
  simp [render, h]

/-- Witness for C8 at two concrete states differing only in the panel
flag. -/
theorem render_deterministic_witness :
    render ⟨[⟨"app", "A"⟩], true⟩ = render ⟨[⟨"app", "A"⟩], false⟩ :=
  render_deterministic ⟨[⟨"app", "A"⟩], true⟩ ⟨[⟨"app", "A"⟩], false⟩ rfl

/-- C9: for every combination of step outcomes, `verify_toolbar` returns
normally (no exception propagates), the `except` handler prints exactly
when some modelled step in the `try` block raises, and the `finally` block
closes the browser exactly when the connection was established and is
still connected (not closed on the early-return path and not dropped). -/
theorem verify_toolbar_total (e : CleanupEnv) :
    (verify_toolbar e).propagated = false ∧
    (verify_toolbar e).printedError = raisesInTry e ∧
    (verify_toolbar e).closedInFinally
      = (browserEstablished e && !(verify_toolbar e).closedEarly
          && !e.linkDropped) := by
  obtain ⟨a, b, c, d, f, g, k⟩ := e
  cases a <;> cases b <;> cases c <;> cases d <;> cases f <;> cases g <;>
    cases k <;> exact ⟨rfl, rfl, rfl⟩

/-- C10: executing `verify_notifications.py` as a script invokes
`fallback_main` and never invokes `main` or `run_main`. -/
theorem script_runs_only_fallback :
    Invoked ScriptFn.fallback_main ∧
    ¬ Invoked ScriptFn.main ∧ ¬ Invoked ScriptFn.run_main := by
  have hrm : ¬ Invoked ScriptFn.run_main := by
    intro h
    cases h with
    | call hf hmem =>
      rename_i f
      cases f <;> simp [calls] at hmem
  refine ⟨Invoked.call Invoked.entry (by decide), ?_, hrm⟩
  intro h
  cases h with
  | call hf hmem =>
    rename_i f
    cases f <;> simp [calls] at hmem
    exact hrm hf

end AutodartsTouch
